import Mathlib

/-!
# Verification of the froyo download engine against its specification

Shallow embedding of `source/engine.py`, `source/utils.py`,
`source/ao3_extensions.py` and the relevant constants of
`source/constants.py`.  Worker threads, HTTP fetches and `threading.Timer`
objects are modelled by explicit state passing: the retry table becomes an
association list of per-key timer lists, each timer carrying a status
(armed / fired / cancelled), and the points where the real engine performs
I/O become oracle parameters describing the outcome the external world
produced.
-/

namespace Froyo

/-- The `Action` enum of `engine.py` (`_SENTINEL`, `LOAD_WORK`, ...). -/
inductive Action where
  | sentinel
  | loadWork
  | downloadWork
  | loadSeries
  | loadUserWorks
  | loadUserBookmarks
  | loadResultsList
  | loadResultsPage
  | login
  deriving DecidableEq, Repr

/-- The value of `list(Action)` in declaration order, as iterated by `for action in Action`. -/
def allActions : List Action :=
  [.sentinel, .loadWork, .downloadWork, .loadSeries, .loadUserWorks,
   .loadUserBookmarks, .loadResultsList, .loadResultsPage, .login]

/-- The `Status` enum of `engine.py`. -/
inductive Status where
  | ok
  | error
  | retry
  deriving DecidableEq, Repr

/-- The heterogeneous identifiers that travel on the worker queue
(`Hashable` in the Python source): work ids are ints, series ids are ints,
user actions carry a username, results actions carry URL tuples. -/
inductive Ident where
  | work (id : Int)
  | series (id : Int)
  | user (name : String)
  | resultsList (url : String) (pageStart pageEnd : Int)
  | resultsPage (url : String) (page : Int)
  | loginCred (username password : String)
  deriving DecidableEq, Repr

/-- Keys of the retry table `(identifier, action)`. -/
abbrev Key := Ident × Action

/-- Embeds `constants.INITIAL_SECONDS_BEFORE_RETRY`. -/
def INITIAL_SECONDS_BEFORE_RETRY : Nat := 10

/-- Status of one `threading.Timer` spawned by `Engine._retry`:
armed (started, neither fired nor cancelled), fired (its callback ran and
re-enqueued the action), or cancelled (`Timer.cancel` before firing). -/
inductive TimerStatus where
  | armed
  | fired
  | cancelled
  deriving DecidableEq, Repr

/-- The retry subsystem state.  `table` models `Engine._retries`
(`Dict[Hashable, List[Timer]]`): each present key holds the ordered list of
timers recorded for it, identified by a creation counter and carrying their
current status.  `graveyard` records timers after their key was purged by
`_cancel_retries` / `_cancel_all_retries` (the `Timer` objects still exist
as threads; keeping them lets us state that none of them is still armed).
`nextId` is the next fresh timer identifier. -/
structure RetryState where
  table : List (Key × List (Nat × TimerStatus))
  graveyard : List (Key × Nat × TimerStatus)
  nextId : Nat
  deriving DecidableEq, Repr

/-- The engine state right after `Engine.__init__`: no retries recorded. -/
def initRetryState : RetryState := ⟨[], [], 0⟩

/-- Embeds `self._retries.get((identifier, action), [])`. -/
def retryList (s : RetryState) (k : Key) : List (Nat × TimerStatus) :=
  ((s.table.find? (fun e => e.1 = k)).map (fun e => e.2)).getD []

/-- Embeds `key in self._retries`. -/
def keyPresent (s : RetryState) (k : Key) : Bool :=
  (s.table.find? (fun e => e.1 = k)).isSome

/-- Embeds `Engine._get_seconds_before_retry`: the delay is
`INITIAL_SECONDS_BEFORE_RETRY * (1 << n_retries)` where `n_retries` is the
number of timers currently recorded for the key. -/
def get_seconds_before_retry (s : RetryState) (k : Key) : Nat :=
  INITIAL_SECONDS_BEFORE_RETRY * (1 <<< (retryList s k).length)

/-- Embeds `Engine._retry`: start a fresh timer for the key and append it to the
key's list (creating the list when the key is absent). -/
def scheduleRetry (s : RetryState) (k : Key) : RetryState :=
  if keyPresent s k then
    { s with
      table := s.table.map (fun e =>
        if e.1 = k then (e.1, e.2 ++ [(s.nextId, TimerStatus.armed)]) else e)
      nextId := s.nextId + 1 }
  else
    { s with
      table := s.table ++ [(k, [(s.nextId, TimerStatus.armed)])]
      nextId := s.nextId + 1 }

/-- Models `Timer.cancel()` followed by `Timer.join()`: an armed timer becomes
cancelled; a timer that already fired stays fired. -/
def cancelTimer (t : Nat × TimerStatus) : Nat × TimerStatus :=
  if t.2 = TimerStatus.armed then (t.1, TimerStatus.cancelled) else t

/-- Embeds `Engine._cancel_retries`: if the key is absent do nothing; otherwise
cancel every timer recorded for the key and delete the key.  The cancelled
timers move to the graveyard (the underlying threads still exist). -/
def cancel_retries (s : RetryState) (k : Key) : RetryState :=
  if keyPresent s k then
    { s with
      table := s.table.filter (fun e => ¬ e.1 = k)
      graveyard := s.graveyard ++ (retryList s k).map (fun t => (k, cancelTimer t)) }
  else s

/-- Embeds `Engine._cancel_all_retries`: pop every key, cancelling all its timers. -/
def cancel_all_retries (s : RetryState) : RetryState :=
  { s with
    table := []
    graveyard := s.graveyard ++
      s.table.flatMap (fun e => e.2.map (fun t => (e.1, cancelTimer t))) }

/-- A timer of key `k` fires: its status flips from armed to fired (the
callback re-enqueues `(identifier, action)`); the table entry itself is not
removed — `_process_queue` and `_retry` never delete individual timers. -/
def fireTimer (s : RetryState) (k : Key) (tid : Nat) : RetryState :=
  { s with
    table := s.table.map (fun e =>
      if e.1 = k then
        (e.1, e.2.map (fun t =>
          if t.1 = tid ∧ t.2 = TimerStatus.armed then (t.1, TimerStatus.fired) else t))
      else e) }

/-- Returns `true` iff some timer recorded for `k` (present entry or graveyard) is
still armed. -/
def anyArmedFor (s : RetryState) (k : Key) : Bool :=
  (retryList s k).any (fun t => t.2 = TimerStatus.armed) ||
  s.graveyard.any (fun g => g.1 = k && g.2.2 = TimerStatus.armed)

/-! ## The worker loop (`Engine._process_queue`) -/

/-- Embeds `Engine._is_work_id_active`: for actions other than `LOAD_WORK` and
`DOWNLOAD_WORK` this always returns true; otherwise it is a membership test
of the identifier in `self._active_ids` (a set of ints, so a non-int
identifier is never a member). -/
def is_work_id_active (activeIds : List Int) (identifier : Ident) (action : Action) : Bool :=
  if action = Action.loadWork ∨ action = Action.downloadWork then
    match identifier with
    | Ident.work id => activeIds.contains id
    | _ => false
  else
    true

/-- What one iteration of the worker loop did for a dequeued task:
whether the action handler ran, whether the after-action observer
(`_run_after_action`) ran, whether a retry was scheduled, and the retry
state the after-action observer (if any) observes. -/
structure StepRes where
  handlerRan : Bool
  afterRan : Bool
  retryScheduled : Bool
  retries : RetryState
  deriving DecidableEq, Repr

/-- One non-blocking iteration of `Engine._process_queue` for a dequeued
`(identifier, action)`.  Because the active-id set is mutated concurrently
by `remove` / `remove_all`, the two membership re-checks of the loop read
two separately supplied snapshots `active1` (before the handler) and
`active2` (after the handler, before retry scheduling and the after-action
observer).  `handlerStatus` is the status the dispatched handler returned.
The sentinel branch re-enqueues the sentinel and returns, running nothing. -/
def process_queue_step (active1 active2 : List Int) (retries : RetryState)
    (identifier : Ident) (action : Action) (handlerStatus : Status) : StepRes :=
  if action = Action.sentinel then
    ⟨false, false, false, retries⟩
  else if ¬ is_work_id_active active1 identifier action then
    ⟨false, false, false, retries⟩
  else if ¬ is_work_id_active active2 identifier action then
    ⟨true, false, false, retries⟩
  else
    match handlerStatus with
    | Status.retry => ⟨true, true, true, scheduleRetry retries (identifier, action)⟩
    | Status.ok => ⟨true, true, false, cancel_retries retries (identifier, action)⟩
    | Status.error => ⟨true, true, false, retries⟩

/-! ## Transitions of the retry subsystem

The retry table is mutated at four places of `engine.py`: `_retry`
(schedule, on a `RETRY` status), the timer callback firing
(re-enqueueing the action), `_cancel_retries` (on `OK`, and from `remove`)
and `_cancel_all_retries` (from `remove_all` / `stop`). -/

inductive RStep : RetryState → RetryState → Prop
  | schedule (s : RetryState) (k : Key) : RStep s (scheduleRetry s k)
  | fire (s : RetryState) (k : Key) (tid : Nat)
      (h : (tid, TimerStatus.armed) ∈ retryList s k) : RStep s (fireTimer s k tid)
  | cancel (s : RetryState) (k : Key) : RStep s (cancel_retries s k)
  | cancelAll (s : RetryState) : RStep s (cancel_all_retries s)

/-- Retry states reachable from the freshly constructed engine. -/
def ReachR (s : RetryState) : Prop :=
  Relation.ReflTransGen RStep initRetryState s

/-- Invariant of the retry subsystem: present keys hold a nonempty list
containing no cancelled timer, and every timer whose key was purged is no
longer armed. -/
structure RetryInv (s : RetryState) : Prop where
  nonempty : ∀ e ∈ s.table, e.2 ≠ []
  notCancelled : ∀ e ∈ s.table, ∀ t ∈ e.2, t.2 ≠ TimerStatus.cancelled
  graveNotArmed : ∀ g ∈ s.graveyard, g.2.2 ≠ TimerStatus.armed

/-! ## The worker pool and the shutdown sentinel

`Engine.stop` puts one `(-1, _SENTINEL)` task on the queue and joins every
worker.  A worker that dequeues the sentinel re-enqueues it at the back of
the queue and returns (`_process_queue` lines 456-459); no other code path
ever enqueues a sentinel.  For the termination argument only the shape of a
task matters: sentinel or ordinary. -/

inductive QTask where
  | sentinelTask
  | ordinary
  deriving DecidableEq, Repr

/-- The FIFO queue contents together with the number of workers still
running their loop. -/
structure PoolState where
  queue : List QTask
  running : Nat
  deriving DecidableEq, Repr

/-- One scheduling step of the pool: some running worker performs the next
blocking `get`.  Popping the sentinel re-enqueues it at the back and the
worker returns (`running` drops by one).  Popping an ordinary task keeps the
worker running; processing it may append new tasks to the back of the queue
(handlers enqueue follow-up work), and none of those is ever a sentinel. -/
inductive PoolStep : PoolState → PoolState → Prop
  | popSentinel (rest : List QTask) (r : Nat) :
      PoolStep ⟨QTask.sentinelTask :: rest, r + 1⟩ ⟨rest ++ [QTask.sentinelTask], r⟩
  | popOrdinary (rest newTasks : List QTask) (r : Nat)
      (h : QTask.sentinelTask ∉ newTasks) :
      PoolStep ⟨QTask.ordinary :: rest, r + 1⟩ ⟨rest ++ newTasks, r + 1⟩

/-- Here `t` is an eventual successor relation viewed backwards: `PoolStepRev t s`
holds when the pool can step from `s` to `t`. -/
def PoolStepRev (t s : PoolState) : Prop := PoolStep s t

/-- Position of the first sentinel in the queue (queue length if none). -/
def sentIdx : List QTask → Nat
  | [] => 0
  | QTask.sentinelTask :: _ => 0
  | QTask.ordinary :: rest => sentIdx rest + 1

/-! ## The download handler (`Engine._download_work`)

The handler's interactions with the outside world — the inner
`_load_work` call and `work.download(filetype)` — are supplied as oracle
outcomes; file contents are byte lists; the filesystem and the work-item
cache (`Engine._items`) are association lists. -/

/-- The `WorkItem` dataclass, as far as the engine inspects it:
`work.loaded` and `download_path`. -/
structure WorkItemM where
  loaded : Bool
  download_path : Option String
  deriving DecidableEq, Repr

/-- Embeds `Engine._get_work_item`: `self._items.get(work_id, None)`. -/
def lookupItem (items : List (Int × WorkItemM)) (id : Int) : Option WorkItemM :=
  (items.find? (fun e => e.1 = id)).map (fun e => e.2)

/-- Embeds `Engine._set_work_item`: `self._items[work_id] = item`. -/
def setItem : List (Int × WorkItemM) → Int → WorkItemM → List (Int × WorkItemM)
  | [], id, it => [(id, it)]
  | e :: items, id, it =>
    if e.1 = id then (id, it) :: items else e :: setItem items id it

/-- Models `Path.is_file` / reading back a written file. -/
def lookupFile (fs : List (String × List Nat)) (p : String) : Option (List Nat) :=
  (fs.find? (fun e => e.1 = p)).map (fun e => e.2)

/-- Models `open(download_path, "wb"); file.write(content)`. -/
def writeFile : List (String × List Nat) → String → List Nat → List (String × List Nat)
  | [], p, content => [(p, content)]
  | e :: fs, p, content =>
    if e.1 = p then (p, content) :: fs else e :: writeFile fs p content

/-- Outcome of the inner `self._load_work(work_id)` call. -/
inductive LoadOutcome where
  | ok
  | rateLimited
  | err (msg : String)
  deriving DecidableEq, Repr

/-- Outcome of `work_item.work.download(self.config.filetype)`: the bytes
the archive returned, an `HTTPError`/`AttributeError` (handled as RETRY),
or any other exception (handled as ERROR with its message). -/
inductive FetchOutcome where
  | fetched (content : List Nat)
  | rateLimited
  | exn (msg : String)
  deriving DecidableEq, Repr

/-- Mutable engine state touched by `_download_work`. -/
structure DLState where
  items : List (Int × WorkItemM)
  fs : List (String × List Nat)
  retries : RetryState
  deriving DecidableEq, Repr

/-- Result of `_download_work`: the `(Status, kwargs)` pair (with the
`error` field of kwargs made explicit) plus the state it leaves behind. -/
structure DLRes where
  status : Status
  error : Option String
  work_item : WorkItemM
  st : DLState
  deriving DecidableEq, Repr

/-- Embeds `if work_item.download_path and work_item.download_path.is_file()`. -/
def alreadyDownloaded (fs : List (String × List Nat)) (item : WorkItemM) : Bool :=
  match item.download_path with
  | some p => (lookupFile fs p).isSome
  | none => false

/-- The tail of `_download_work` after the load step: fetch the bytes,
refuse an empty body (`"Downloaded 0 bytes"`, no file written), otherwise
write the file, record `download_path` and cache the item. -/
def finishDownload (st : DLState) (workId : Int) (item : WorkItemM)
    (path : String) (fetch : FetchOutcome) : DLRes :=
  match fetch with
  | FetchOutcome.rateLimited => ⟨Status.retry, none, item, st⟩
  | FetchOutcome.exn m => ⟨Status.error, some m, item, st⟩
  | FetchOutcome.fetched content =>
    if content.isEmpty then
      ⟨Status.error, some "Downloaded 0 bytes", item, st⟩
    else
      let item2 : WorkItemM := { item with download_path := some path }
      ⟨Status.ok, none, item2,
        { st with
          fs := writeFile st.fs path content
          items := setItem st.items workId item2 }⟩

/-- Embeds `Engine._download_work`: cached-and-present short-circuit, ensure the
work is loaded (propagating a failing load), then fetch and write.
`pathFor` stands for `_get_download_file_path` (downloads dir / username /
slugified file name — built on the external `slugify`). -/
def download_work (st : DLState) (workId : Int) (pathFor : Int → String)
    (loadOutcome : LoadOutcome) (fetch : FetchOutcome) : DLRes :=
  let work_item := (lookupItem st.items workId).getD ⟨false, none⟩
  if alreadyDownloaded st.fs work_item then
    ⟨Status.ok, none, work_item, st⟩
  else if work_item.loaded then
    finishDownload st workId work_item (pathFor workId) fetch
  else
    match loadOutcome with
    | LoadOutcome.rateLimited => ⟨Status.retry, none, work_item, st⟩
    | LoadOutcome.err m => ⟨Status.error, some m, work_item, st⟩
    | LoadOutcome.ok =>
      let item1 : WorkItemM := { work_item with loaded := true }
      let st1 : DLState :=
        { st with
          items := setItem st.items workId item1
          retries := cancel_retries st.retries (Ident.work workId, Action.loadWork) }
      finishDownload st1 workId item1 (pathFor workId) fetch

/-! ## Worker-thread count at startup (`Engine.__init__`, `_init_worker_threads`) -/

/-- The engine-relevant part of `Configuration`. -/
structure ConfigM where
  should_use_threading : Bool
  concurrency_limit : Int
  deriving DecidableEq, Repr

/-- Embeds `constants.DEFAULT_CONCURRENCY_LIMIT`. -/
def DEFAULT_CONCURRENCY_LIMIT : Int := 20

/-- Embeds `Configuration.parse_from_file` for the `engine:concurrency_limit` key:
a missing key keeps the current (default) value; a parsed integer is
accepted only if `> 0` (the `assert self.concurrency_limit > 0`), otherwise
the default is kept.  (There is no upper bound in the parser.) -/
def parseConcurrencyLimit (fileValue : Option Int) (current : Int) : Int :=
  match fileValue with
  | none => current
  | some v => if v > 0 then v else current

/-- Embeds `Engine.__init__` lines 99-101: `n_workers = 1` unless
`should_use_threading and concurrency_limit > 1`. -/
def engineWorkerCount (c : ConfigM) : Int :=
  if c.should_use_threading ∧ c.concurrency_limit > 1 then c.concurrency_limit else 1

/-- Embeds `Engine._init_worker_threads`: `for _ in range(n_workers)` starts
exactly `max n 0` threads. -/
def init_worker_threads (n : Int) : Nat := n.toNat

/-- The claim's own description of the worker count ("concurrency_limit
clamped to the range [1, 50]"), written out to be compared with the code. -/
def claimedWorkerCount (c : ConfigM) : Int :=
  if ¬ c.should_use_threading ∨ c.concurrency_limit = 1 then 1
  else max 1 (min 50 c.concurrency_limit)

/-! ## Results-page enumeration (`ao3_extensions.Results.update`,
`Engine._load_pages_from_results_list`, `Engine.load_works_from_generic_url`) -/

/-- What the HTML pagination probe of `Results.update` found: the
navigation bar with its total-page count, no navigation bar element
(`soup.find` returned nothing usable — a single page of results), or an
exception while extracting the count. -/
inductive PageProbe where
  | found (total : Int)
  | noNavBar
  | exn
  deriving DecidableEq, Repr

/-- Embeds `Results.update` (the non-rate-limited paths): returns the resulting
`(pages, page_end)` pair.  When the navigation bar is found, `pages` is its
count and a zero `page_end` is replaced by `pages`; when it is missing or
extraction fails, `pages` is set to 1 and — as in the source — `page_end`
is left untouched. -/
def resultsUpdate (pageEnd : Int) (probe : PageProbe) : Int × Int :=
  match probe with
  | PageProbe.found total => (total, if pageEnd = 0 then total else pageEnd)
  | PageProbe.noNavBar => (1, pageEnd)
  | PageProbe.exn => (1, pageEnd)

/-- Python `range(a, b)` over integers. -/
def pythonRange (a b : Int) : List Int :=
  (List.range (b - a).toNat).map (fun i => a + (i : Int))

/-- Embeds `Engine._load_pages_from_results_list` (non-rate-limited paths): run
`Results.update`, then enqueue `(url, page)` as `LOAD_RESULTS_PAGE` for
every `page in range(max(1, results.page_start), min(results.pages,
results.page_end) + 1)`, and return `OK`. -/
def load_pages_from_results_list (url : String) (pageStart pageEnd : Int)
    (probe : PageProbe) : Status × List (String × Int) :=
  let u := resultsUpdate pageEnd probe
  (Status.ok,
    (pythonRange (max 1 pageStart) (min u.1 u.2 + 1)).map (fun page => (url, page)))

/-- Embeds `Engine.load_works_from_generic_url` after URL normalization
(`ao3_extensions.get_ao3_url`, supplied as an oracle): `none` means the URL
was not on the archive host (nothing enqueued); otherwise a single
`LOAD_RESULTS_PAGE` when `page_start == page_end`, else one
`LOAD_RESULTS_LIST`. -/
def load_works_from_generic_url (normalized : Option String)
    (pageStart pageEnd : Int) : List Ident :=
  match normalized with
  | none => []
  | some u =>
    if pageStart = pageEnd then [Ident.resultsPage u pageStart]
    else [Ident.resultsList u pageStart pageEnd]

/-! ## `utils.series_id_from_url` -/

/-- Python `str.split(sep)` for a one-character separator over the list of
characters (`"".split(sep) == [""]`, separators at the ends produce empty
segments). -/
def splitOnChar (c : Char) : List Char → List (List Char)
  | [] => [[]]
  | x :: xs =>
    match splitOnChar c xs with
    | [] => [[x]]
    | h :: t => if x = c then [] :: h :: t else (x :: h) :: t

/-- Numeric value of a digit string, as `int(s)` on a digit-only string. -/
def digitsToNat (l : List Char) : Nat :=
  l.foldl (fun a c => a * 10 + (c.toNat - '0'.toNat)) 0

/-- Python `str.isdigit` restricted to ASCII: nonempty and all digits. -/
def isDigits (l : List Char) : Bool :=
  ¬ l.isEmpty && l.all (fun c => c.isDigit)

/-- Embeds `utils.series_id_from_url`: split the URL on `/`, look for the first
`"series"` segment (`.index` raising `ValueError` returns `None`), guard
with `len(split_url) >= index + 1` — which is vacuously true — and read
`split_url[index + 1]`; the uncaught `IndexError` when `"series"` is the
last segment is modelled as `.error "IndexError"`.  The segment is cut at
the first `?`, and returned as an int when purely digits, `none`
otherwise. -/
def series_id_from_url (url : String) : Except String (Option Nat) :=
  let split_url := splitOnChar '/' url.toList
  match split_url.findIdx? (fun seg => seg = "series".toList) with
  | none => Except.ok none
  | some index =>
    if split_url.length ≥ index + 1 then
      match split_url.get? (index + 1) with
      | none => Except.error "IndexError"
      | some seg =>
        let series_id :=
          match splitOnChar '?' seg with
          | [] => []
          | h :: _ => h
        if isDigits series_id then Except.ok (some (digitsToNat series_id))
        else Except.ok none
    else Except.ok none

/-! ## `Engine.remove` -/

/-- The engine state touched by `Engine.remove`: the active-id set, the
work-item cache and the retry table. -/
structure EngineState where
  activeIds : List Int
  items : List (Int × WorkItemM)
  retries : RetryState
  deriving DecidableEq, Repr

/-- Embeds `Engine.remove(work_id)`: `self._active_ids.remove(work_id)` raises
`KeyError` when the id is not in the set — before the work-item cache or
any retry timer is touched — modelled by returning `.error "KeyError"`
together with the unchanged state.  Otherwise the id is dropped from the
active set, the cache entry (if any) is deleted, and `_cancel_retries` runs
for the id under every action. -/
def removeWork (s : EngineState) (workId : Int) : Except String Unit × EngineState :=
  if workId ∈ s.activeIds then
    let s1 : EngineState := { s with activeIds := s.activeIds.filter (fun i => ¬ i = workId) }
    let s2 : EngineState := { s1 with items := s1.items.filter (fun e => ¬ e.1 = workId) }
    let s3 : EngineState :=
      { s2 with
        retries := allActions.foldl
          (fun r a => cancel_retries r (Ident.work workId, a)) s2.retries }
    (Except.ok (), s3)
  else
    (Except.error "KeyError", s)

/-- A reachable state falsifying C7 as stated: a retry is scheduled for
`(work 42, LoadWork)` and its single timer fires (re-enqueueing the
action); the fired timer stays recorded, so the key is still present in
the retry table while no timer for it is armed. -/
def firedKeyState : RetryState :=
  fireTimer (scheduleRetry initRetryState (Ident.work 42, Action.loadWork))
    (Ident.work 42, Action.loadWork) 0


/-! ## Lemmas and claim theorems -/

theorem retryInv_init : RetryInv initRetryState := by
  constructor <;> simp [initRetryState]

theorem cancelTimer_not_armed (t : Nat × TimerStatus) :
    (cancelTimer t).2 ≠ TimerStatus.armed := by
  unfold cancelTimer
  by_cases h : t.2 = TimerStatus.armed <;> simp [h]

theorem retryInv_scheduleRetry {s : RetryState} (hs : RetryInv s) (k : Key) :
    RetryInv (scheduleRetry s k) := by
  unfold scheduleRetry
  split
  · refine ⟨?_, ?_, hs.graveNotArmed⟩
    · intro e he
      simp only [List.mem_map] at he
      obtain ⟨a, ha, rfl⟩ := he
      by_cases hak : a.1 = k <;> simp [hak]
      exact hs.nonempty a ha
    · intro e he t ht
      simp only [List.mem_map] at he
      obtain ⟨a, ha, rfl⟩ := he
      by_cases hak : a.1 = k <;> simp only [hak, if_true, if_false, reduceIte] at ht
      · simp only [List.mem_append, List.mem_singleton] at ht
        rcases ht with ht | ht
        · exact hs.notCancelled a ha t ht
        · simp [ht]
      · exact hs.notCancelled a ha t ht
  · refine ⟨?_, ?_, hs.graveNotArmed⟩
    · intro e he
      rcases List.mem_append.mp he with he | he
      · exact hs.nonempty e he
      · simp only [List.mem_singleton] at he
        simp [he]
    · intro e he t ht
      rcases List.mem_append.mp he with he | he
      · exact hs.notCancelled e he t ht
      · simp only [List.mem_singleton] at he
        subst he
        simp only [List.mem_singleton] at ht
        simp [ht]

theorem retryInv_fireTimer {s : RetryState} (hs : RetryInv s) (k : Key) (tid : Nat) :
    RetryInv (fireTimer s k tid) := by
  unfold fireTimer
  refine ⟨?_, ?_, hs.graveNotArmed⟩
  · intro e he
    simp only [List.mem_map] at he
    obtain ⟨a, ha, rfl⟩ := he
    by_cases hak : a.1 = k <;> simp only [hak, if_true, if_false, reduceIte]
    · simp only [ne_eq, List.map_eq_nil_iff]
      exact hs.nonempty a ha
    · exact hs.nonempty a ha
  · intro e he t ht
    simp only [List.mem_map] at he
    obtain ⟨a, ha, rfl⟩ := he
    by_cases hak : a.1 = k <;> simp only [hak, if_true, if_false, reduceIte] at ht
    · simp only [List.mem_map] at ht
      obtain ⟨u, hu, hut⟩ := ht
      by_cases harm : u.1 = tid ∧ u.2 = TimerStatus.armed <;>
        simp only [harm, if_true, if_false, reduceIte] at hut
      · simp [← hut]
      · rw [← hut]
        exact hs.notCancelled a ha u hu
    · exact hs.notCancelled a ha t ht

theorem retryInv_cancel_retries {s : RetryState} (hs : RetryInv s) (k : Key) :
    RetryInv (cancel_retries s k) := by
  unfold cancel_retries
  split
  · refine ⟨?_, ?_, ?_⟩
    · intro e he
      exact hs.nonempty e (List.mem_of_mem_filter he)
    · intro e he
      exact hs.notCancelled e (List.mem_of_mem_filter he)
    · intro g hg
      rcases List.mem_append.mp hg with hg | hg
      · exact hs.graveNotArmed g hg
      · simp only [List.mem_map] at hg
        obtain ⟨t, _, rfl⟩ := hg
        exact cancelTimer_not_armed t
  · exact hs

theorem retryInv_cancel_all_retries {s : RetryState} (hs : RetryInv s) :
    RetryInv (cancel_all_retries s) := by
  unfold cancel_all_retries
  refine ⟨by simp, by simp, ?_⟩
  intro g hg
  rcases List.mem_append.mp hg with hg | hg
  · exact hs.graveNotArmed g hg
  · simp only [List.mem_flatMap, List.mem_map] at hg
    obtain ⟨e, _, t, _, rfl⟩ := hg
    exact cancelTimer_not_armed t

theorem retryInv_step {s s' : RetryState} (hs : RetryInv s) (h : RStep s s') :
    RetryInv s' := by
  cases h with
  | schedule k => exact retryInv_scheduleRetry hs k
  | fire k tid hmem => exact retryInv_fireTimer hs k tid
  | cancel k => exact retryInv_cancel_retries hs k
  | cancelAll => exact retryInv_cancel_all_retries hs

theorem retryInv_reach {s : RetryState} (h : ReachR s) : RetryInv s := by
  induction h with
  | refl => exact retryInv_init
  | tail _ hstep ih => exact retryInv_step ih hstep

theorem find?_filter_ne_none (l : List (Key × List (Nat × TimerStatus))) (k : Key) :
    (l.filter (fun e => ¬ e.1 = k)).find? (fun e => e.1 = k) = none := by
  induction l with
  | nil => simp
  | cons a l ih =>
    by_cases h : a.1 = k <;> simp [h, ih]

/-- After `_cancel_retries`, the key is gone from the table. -/
theorem keyPresent_cancel_retries (s : RetryState) (k : Key) :
    keyPresent (cancel_retries s k) k = false := by
  unfold cancel_retries
  split
  · unfold keyPresent
    simp [find?_filter_ne_none]
  · rename_i hk
    simpa using hk

/-- An absent key reads back as the empty timer list. -/
theorem retryList_eq_nil_of_not_present {s : RetryState} {k : Key}
    (h : keyPresent s k = false) : retryList s k = [] := by
  unfold keyPresent at h
  unfold retryList
  rcases hf : s.table.find? (fun e => e.1 = k) with _ | e
  · rw [hf]
    simp
  · rw [hf] at h
    simp at h

/-- After `_cancel_retries`, no timer recorded for the key is still armed
(given the reachability invariant). -/
theorem anyArmedFor_cancel_retries {s : RetryState} (hs : RetryInv s) (k : Key) :
    anyArmedFor (cancel_retries s k) k = false := by
  have hkp := keyPresent_cancel_retries s k
  have hnil := retryList_eq_nil_of_not_present hkp
  unfold anyArmedFor
  rw [hnil]
  simp only [List.any_nil, Bool.false_or]
  unfold cancel_retries
  by_cases hk : keyPresent s k <;> simp only [hk, if_true, if_false, reduceIte]
  · simp only [List.any_append, Bool.or_eq_false_iff]
    constructor
    · simp only [List.any_eq_false]
      intro g hg
      simp [hs.graveNotArmed g hg]
    · simp only [List.any_eq_false]
      intro g hg
      simp only [List.mem_map] at hg
      obtain ⟨t, _, rfl⟩ := hg
      simp [cancelTimer_not_armed t]
  · simp only [List.any_eq_false]
    intro g hg
    simp [hs.graveNotArmed g hg]

theorem sentIdx_append_of_mem {l : List QTask} (l' : List QTask)
    (h : QTask.sentinelTask ∈ l) : sentIdx (l ++ l') = sentIdx l := by
  induction l with
  | nil => simp at h
  | cons a l ih =>
    cases a with
    | sentinelTask => simp [sentIdx]
    | ordinary =>
      simp only [List.mem_cons, reduceCtorEq, false_or] at h
      simp [sentIdx, ih h]

/-- Strong normalization of the pool once a sentinel is in the queue:
every worker terminates after finitely many steps.  The measure is
lexicographic: the number of running workers, then the position of the
first sentinel (appends land behind it, pops move it forward). -/
theorem pool_terminates_aux :
    ∀ (n m : Nat) (s : PoolState), s.running = n → sentIdx s.queue = m →
      QTask.sentinelTask ∈ s.queue → Acc PoolStepRev s := by
  intro n
  induction n with
  | zero =>
    intro m s hr _ _
    refine Acc.intro s ?_
    intro t ht
    cases ht <;> simp_all
  | succ n ihn =>
    intro m
    induction m with
    | zero =>
      intro s hr hm hmem
      refine Acc.intro s ?_
      intro t ht
      cases ht with
      | popSentinel rest r =>
        have hrn : r = n := by simpa using hr
        exact ihn _ _ (by simp [hrn]) rfl (by simp)
      | popOrdinary rest newTasks r hnew =>
        simp [sentIdx] at hm
    | succ m ihm =>
      intro s hr hm hmem
      refine Acc.intro s ?_
      intro t ht
      cases ht with
      | popSentinel rest r =>
        have hrn : r = n := by simpa using hr
        exact ihn _ _ (by simp [hrn]) rfl (by simp)
      | popOrdinary rest newTasks r hnew =>
        have hrest : QTask.sentinelTask ∈ rest := by
          simpa using hmem
        have hidx : sentIdx (rest ++ newTasks) = m := by
          rw [sentIdx_append_of_mem newTasks hrest]
          simpa [sentIdx] using hm
        have hrun : r + 1 = n + 1 := hr
        exact ihm ⟨rest ++ newTasks, r + 1⟩ (by simpa using hrun) hidx
          (by simp [hrest])

/-- C4: (i) once a sentinel is on the queue every execution of the worker
pool is finite (each worker terminates: `Acc` of the step relation means
no infinite run exists); (ii) a state from which no step is possible while
a sentinel is queued has zero running workers, i.e. the pool can only stop
stepping because every worker has returned — so `stop()`'s joins all
return; and (iii) `stop`'s `_cancel_all_retries` empties the retry table
and leaves no armed timer for any key, in every reachable retry state. -/
theorem sentinel_terminates_all_workers :
    (∀ s : PoolState, QTask.sentinelTask ∈ s.queue → Acc PoolStepRev s) ∧
    (∀ s : PoolState, QTask.sentinelTask ∈ s.queue →
      (∀ t, ¬ PoolStep s t) → s.running = 0) ∧
    (∀ r : RetryState, ReachR r →
      (cancel_all_retries r).table = [] ∧
      ∀ k : Key, anyArmedFor (cancel_all_retries r) k = false) := by
  refine ⟨?_, ?_, ?_⟩
  · intro s hmem
    exact pool_terminates_aux s.running (sentIdx s.queue) s rfl rfl hmem
  · intro s hmem hstuck
    rcases s with ⟨queue, running⟩
    cases running with
    | zero => rfl
    | succ r =>
      cases queue with
      | nil => simp at hmem
      | cons a rest =>
        cases a with
        | sentinelTask => exact absurd (PoolStep.popSentinel rest r) (hstuck _)
        | ordinary =>
          exact absurd (PoolStep.popOrdinary rest [] r (by simp)) (hstuck _)
  · intro r hreach
    have hs := retryInv_reach hreach
    have hinv := retryInv_cancel_all_retries hs
    refine ⟨rfl, ?_⟩
    intro k
    have hkp : keyPresent (cancel_all_retries r) k = false := by
      unfold keyPresent cancel_all_retries
      simp
    have hnil := retryList_eq_nil_of_not_present hkp
    unfold anyArmedFor
    rw [hnil]
    simp only [List.any_nil, Bool.false_or, List.any_eq_false]
    intro g hg
    simp [hinv.graveNotArmed g hg]

/-- Witness for C4 at concrete inputs: a queue holding one sentinel with
three running workers is strongly normalizing, and shutting down the retry
state with one armed timer leaves an empty table. -/
theorem sentinel_terminates_all_workers_witness :
    Acc PoolStepRev ⟨[QTask.sentinelTask], 3⟩ ∧
    (cancel_all_retries
        (scheduleRetry initRetryState (Ident.work 1, Action.loadWork))).table = [] :=
  ⟨sentinel_terminates_all_workers.1 ⟨[QTask.sentinelTask], 3⟩ (by decide),
   (sentinel_terminates_all_workers.2.2
      (scheduleRetry initRetryState (Ident.work 1, Action.loadWork))
      (Relation.ReflTransGen.single (RStep.schedule _ _))).1⟩

theorem lookupFile_writeFile (fs : List (String × List Nat)) (p : String)
    (content : List Nat) : lookupFile (writeFile fs p content) p = some content := by
  induction fs with
  | nil => simp [writeFile, lookupFile]
  | cons e fs ih =>
    by_cases h : e.1 = p <;> simp [writeFile, lookupFile, h]
    simpa [lookupFile] using ih

theorem finishDownload_empty (st : DLState) (workId : Int) (item : WorkItemM)
    (path : String) :
    finishDownload st workId item path (FetchOutcome.fetched [])
      = ⟨Status.error, some "Downloaded 0 bytes", item, st⟩ := by
  simp [finishDownload]

theorem finishDownload_ok_file (st : DLState) (workId : Int) (item : WorkItemM)
    (path : String) (fetch : FetchOutcome)
    (h : (finishDownload st workId item path fetch).status = Status.ok) :
    ∃ b, (finishDownload st workId item path fetch).work_item.download_path = some path ∧
      lookupFile (finishDownload st workId item path fetch).st.fs path = some b ∧
      b ≠ [] := by
  cases fetch with
  | rateLimited => simp [finishDownload] at h
  | exn m => simp [finishDownload] at h
  | fetched content =>
    by_cases hc : content.isEmpty
    · simp [finishDownload, hc] at h
    · refine ⟨content, ?_, ?_, by simpa [List.isEmpty_iff] using hc⟩
      · simp [finishDownload, hc]
      · simp [finishDownload, hc, lookupFile_writeFile]

/-! ## Claim theorems -/

/-- C1: for a dequeued work-scoped task (`LoadWork` / `DownloadWork`),
(i) if the id is not in the active set at dequeue time, neither the handler
nor the after-action observer runs (and the retry table is untouched);
(ii) if the id is active at dequeue time but has left the active set by the
post-handler re-check, the handler did run but retry scheduling and the
after-action observer are both skipped. -/
theorem work_removed_skips_handler_and_observer
    (active1 active2 : List Int) (retries : RetryState) (id : Int)
    (action : Action) (handlerStatus : Status)
    (hwork : action = Action.loadWork ∨ action = Action.downloadWork) :
    (id ∉ active1 →
      process_queue_step active1 active2 retries (Ident.work id) action handlerStatus
        = ⟨false, false, false, retries⟩) ∧
    (id ∈ active1 → id ∉ active2 →
      process_queue_step active1 active2 retries (Ident.work id) action handlerStatus
        = ⟨true, false, false, retries⟩) := by
  have hns : ¬ action = Action.sentinel := by
    rcases hwork with h | h <;> simp [h]
  constructor
  · intro h1
    have : is_work_id_active active1 (Ident.work id) action = false := by
      simp [is_work_id_active, hwork, h1]
    simp [process_queue_step, hns, this]
  · intro h1 h2
    have ha1 : is_work_id_active active1 (Ident.work id) action = true := by
      simp [is_work_id_active, hwork, h1]
    have ha2 : is_work_id_active active2 (Ident.work id) action = false := by
      simp [is_work_id_active, hwork, h2]
    simp [process_queue_step, hns, ha1, ha2]

/-- Witness for C1 at concrete inputs: id 3 is absent at dequeue time, and
id 7 is active at dequeue time but removed before the post-handler check. -/
theorem work_removed_skips_handler_and_observer_witness :
    process_queue_step [7] [7] initRetryState (Ident.work 3) Action.loadWork Status.ok
      = ⟨false, false, false, initRetryState⟩ ∧
    process_queue_step [7] [] initRetryState (Ident.work 7) Action.downloadWork Status.retry
      = ⟨true, false, false, initRetryState⟩ :=
  ⟨(work_removed_skips_handler_and_observer [7] [7] initRetryState 3
      Action.loadWork Status.ok (Or.inl rfl)).1 (by decide),
   (work_removed_skips_handler_and_observer [7] [] initRetryState 7
      Action.downloadWork Status.retry (Or.inr rfl)).2 (by decide) (by decide)⟩

/-- C2: the delay computed for the N-th scheduled retry of a key (N being
the number of timers recorded for that key at scheduling time) is exactly
`INITIAL_SECONDS_BEFORE_RETRY * 2 ^ N` with `INITIAL_SECONDS_BEFORE_RETRY
= 10` — the sequence 10, 20, 40, 80, ... — and the schedule has no upper
bound. -/
theorem retry_delay_exponential (s : RetryState) (k : Key) (N : Nat)
    (hcount : (retryList s k).length = N) :
    get_seconds_before_retry s k = INITIAL_SECONDS_BEFORE_RETRY * 2 ^ N ∧
    INITIAL_SECONDS_BEFORE_RETRY = 10 ∧
    (∀ bound : Nat, ∃ M : Nat, INITIAL_SECONDS_BEFORE_RETRY * 2 ^ M > bound) := by
  refine ⟨?_, rfl, ?_⟩
  · simp [get_seconds_before_retry, hcount, Nat.shiftLeft_eq]
  · intro bound
    refine ⟨bound, ?_⟩
    calc bound < 2 ^ bound := Nat.lt_two_pow bound
    _ ≤ INITIAL_SECONDS_BEFORE_RETRY * 2 ^ bound :=
        Nat.le_mul_of_pos_left (2 ^ bound) (by decide)

/-- Witness for C2: a state with two timers already recorded for the key
yields a third-retry delay of 10 * 2 ^ 2 = 40 seconds. -/
theorem retry_delay_exponential_witness :
    get_seconds_before_retry
      ⟨[((Ident.work 5, Action.loadWork),
         [(0, TimerStatus.fired), (1, TimerStatus.armed)])], [], 2⟩
      (Ident.work 5, Action.loadWork) = 10 * 2 ^ 2 :=
  (retry_delay_exponential _ _ 2 (by decide)).1

/-- C3: in any reachable retry state, when the handler returned `OK` and
the after-action observer runs, the worker first calls `_cancel_retries`,
so the observer sees a retry state in which the key is purged, its timer
list is empty, and no timer recorded for the key is still armed. -/
theorem ok_cancels_retries_before_observer (s : RetryState) (hreach : ReachR s)
    (active1 active2 : List Int) (identifier : Ident) (action : Action)
    (hafter : (process_queue_step active1 active2 s identifier action Status.ok).afterRan
      = true) :
    keyPresent (process_queue_step active1 active2 s identifier action Status.ok).retries
      (identifier, action) = false ∧
    retryList (process_queue_step active1 active2 s identifier action Status.ok).retries
      (identifier, action) = [] ∧
    anyArmedFor (process_queue_step active1 active2 s identifier action Status.ok).retries
      (identifier, action) = false := by
  by_cases h1 : action = Action.sentinel
  · simp [process_queue_step, h1] at hafter
  · by_cases h2 : is_work_id_active active1 identifier action = true
    · by_cases h3 : is_work_id_active active2 identifier action = true
      · have hred : process_queue_step active1 active2 s identifier action Status.ok
            = ⟨true, true, false, cancel_retries s (identifier, action)⟩ := by
          simp [process_queue_step, h1, h2, h3]
        rw [hred]
        have hkp := keyPresent_cancel_retries s (identifier, action)
        exact ⟨hkp, retryList_eq_nil_of_not_present hkp,
          anyArmedFor_cancel_retries (retryInv_reach hreach) (identifier, action)⟩
      · simp [process_queue_step, h1, h2, h3] at hafter
    · simp [process_queue_step, h1, h2] at hafter

/-- Witness for C3: a reachable state with one armed timer for work id 9;
after an `OK` with the id still active, the key is purged. -/
theorem ok_cancels_retries_before_observer_witness :
    keyPresent
      (process_queue_step [9] [9]
        (scheduleRetry initRetryState (Ident.work 9, Action.loadWork))
        (Ident.work 9) Action.loadWork Status.ok).retries
      (Ident.work 9, Action.loadWork) = false ∧
    anyArmedFor
      (process_queue_step [9] [9]
        (scheduleRetry initRetryState (Ident.work 9, Action.loadWork))
        (Ident.work 9) Action.loadWork Status.ok).retries
      (Ident.work 9, Action.loadWork) = false := by
  have h := ok_cancels_retries_before_observer
    (scheduleRetry initRetryState (Ident.work 9, Action.loadWork))
    (Relation.ReflTransGen.single (RStep.schedule _ _))
    [9] [9] (Ident.work 9) Action.loadWork (by decide)
  exact ⟨h.1, h.2.2⟩

theorem firedKeyState_reachable : ReachR firedKeyState :=
  Relation.ReflTransGen.tail
    (Relation.ReflTransGen.single (RStep.schedule _ _))
    (RStep.fire _ _ 0 (by decide))

/-- C7 counterexample: it is not true that in every reachable engine state
a key is present in the retry table only if at least one of its timers is
still armed — after a timer fires, the key stays present with no armed
timer. -/
theorem retry_key_armed_invariant_cex :
    ¬ (∀ s : RetryState, ReachR s → ∀ k : Key,
        keyPresent s k = true → anyArmedFor s k = true) := by
  intro hclaim
  have h := hclaim firedKeyState firedKeyState_reachable
    (Ident.work 42, Action.loadWork) (by decide)
  exact absurd h (by decide)

/-- C7 amended: in every reachable engine state, a key present in the
retry table holds a nonempty list of timers none of which was cancelled
(armed or already fired — a fired timer stays recorded until the key is
purged); and `_cancel_retries` (run on success of the action and, for every
action, on user removal of the identifier) cancels the key's timers and
purges the key, leaving no armed timer for it. -/
theorem retry_key_invariant_amended (s : RetryState) (hreach : ReachR s) (k : Key) :
    (keyPresent s k = true →
      retryList s k ≠ [] ∧ ∀ t ∈ retryList s k, t.2 ≠ TimerStatus.cancelled) ∧
    keyPresent (cancel_retries s k) k = false ∧
    anyArmedFor (cancel_retries s k) k = false := by
  have hs := retryInv_reach hreach
  refine ⟨?_, keyPresent_cancel_retries s k, anyArmedFor_cancel_retries hs k⟩
  intro hp
  unfold keyPresent at hp
  rcases hf : s.table.find? (fun e => e.1 = k) with _ | e
  · rw [hf] at hp
    simp at hp
  · have he : e ∈ s.table := List.mem_of_find?_eq_some hf
    have hl : retryList s k = e.2 := by
      unfold retryList
      rw [hf]
      rfl
    rw [hl]
    exact ⟨hs.nonempty e he, hs.notCancelled e he⟩

/-- C5: (i) when the download handler actually fetches (the work is not
already downloaded and the load step did not fail) and the fetched byte
content is empty, it returns `ERROR` with payload `"Downloaded 0 bytes"`
and writes no file; (ii) whenever `_download_work` returns `OK`, the file
at the recorded `download_path` exists and has size > 0 — provided files
previously recorded in the cache are non-empty, which holds because only
this handler (which refuses empty bodies) writes them. -/
theorem download_empty_errors_and_ok_nonempty
    (st : DLState) (workId : Int) (pathFor : Int → String) (loadOutcome : LoadOutcome)
    (hcache : ∀ p b,
      ((lookupItem st.items workId).getD ⟨false, none⟩).download_path = some p →
      lookupFile st.fs p = some b → b ≠ []) :
    (alreadyDownloaded st.fs ((lookupItem st.items workId).getD ⟨false, none⟩) = false →
      (((lookupItem st.items workId).getD ⟨false, none⟩).loaded = true ∨
        loadOutcome = LoadOutcome.ok) →
      (download_work st workId pathFor loadOutcome (FetchOutcome.fetched [])).status
          = Status.error ∧
      (download_work st workId pathFor loadOutcome (FetchOutcome.fetched [])).error
          = some "Downloaded 0 bytes" ∧
      (download_work st workId pathFor loadOutcome (FetchOutcome.fetched [])).st.fs
          = st.fs) ∧
    (∀ fetch : FetchOutcome,
      (download_work st workId pathFor loadOutcome fetch).status = Status.ok →
      ∃ p b,
        (download_work st workId pathFor loadOutcome fetch).work_item.download_path
            = some p ∧
        lookupFile (download_work st workId pathFor loadOutcome fetch).st.fs p
            = some b ∧ b ≠ []) := by
  constructor
  · intro hnotdl hloaded
    unfold download_work
    simp only [hnotdl, Bool.false_eq_true, if_false, reduceIte]
    rcases hloaded with hl | hl
    · simp only [hl, if_true, reduceIte]
      rw [finishDownload_empty]
      exact ⟨rfl, rfl, rfl⟩
    · subst hl
      by_cases hwl : ((lookupItem st.items workId).getD ⟨false, none⟩).loaded = true
      · simp only [hwl, if_true, reduceIte]
        rw [finishDownload_empty]
        exact ⟨rfl, rfl, rfl⟩
      · simp only [hwl, Bool.false_eq_true, if_false, reduceIte]
        rw [finishDownload_empty]
        exact ⟨rfl, rfl, rfl⟩
  · intro fetch hok
    unfold download_work at hok ⊢
    by_cases hdl : alreadyDownloaded st.fs ((lookupItem st.items workId).getD ⟨false, none⟩) = true
    · simp only [hdl, if_true, reduceIte] at hok ⊢
      rcases hp : ((lookupItem st.items workId).getD ⟨false, none⟩).download_path
          with _ | p
      · unfold alreadyDownloaded at hdl
        rw [hp] at hdl
        simp at hdl
      · unfold alreadyDownloaded at hdl
        rw [hp] at hdl
        have hdl2 : (lookupFile st.fs p).isSome = true := by simpa using hdl
        rcases hb : lookupFile st.fs p with _ | b
        · rw [hb] at hdl2
          simp at hdl2
        · exact ⟨p, b, rfl, hb, hcache p b hp hb⟩
    · simp only [Bool.not_eq_true] at hdl
      simp only [hdl, Bool.false_eq_true, if_false, reduceIte] at hok ⊢
      by_cases hwl : ((lookupItem st.items workId).getD ⟨false, none⟩).loaded = true
      · simp only [hwl, if_true, reduceIte] at hok ⊢
        obtain ⟨b, h1, h2, h3⟩ := finishDownload_ok_file _ _ _ _ _ hok
        exact ⟨pathFor workId, b, h1, h2, h3⟩
      · simp only [hwl, Bool.false_eq_true, if_false, reduceIte] at hok ⊢
        cases loadOutcome with
        | rateLimited => simp at hok
        | err m => simp at hok
        | ok =>
          simp only at hok ⊢
          obtain ⟨b, h1, h2, h3⟩ := finishDownload_ok_file _ _ _ _ _ hok
          exact ⟨pathFor workId, b, h1, h2, h3⟩

/-- Witness for C5 at a concrete state: an unloaded, uncached work 11 whose
load succeeds; the empty-body fetch errors without writing, and a 3-byte
fetch yields `OK` with the bytes on disk. -/
theorem download_empty_errors_and_ok_nonempty_witness :
    (download_work ⟨[], [], initRetryState⟩ 11 (fun _ => "file")
        LoadOutcome.ok (FetchOutcome.fetched [])).status = Status.error ∧
    (download_work ⟨[], [], initRetryState⟩ 11 (fun _ => "file")
        LoadOutcome.ok (FetchOutcome.fetched [7, 8, 9])).status = Status.ok := by
  have h := download_empty_errors_and_ok_nonempty ⟨[], [], initRetryState⟩ 11
    (fun _ => "file") LoadOutcome.ok
    (by intro p b hp hb; simp [lookupItem] at hp)
  refine ⟨(h.1 (by decide) (Or.inr rfl)).1, ?_⟩
  decide

/-- Witness for C7's amended statement at the concrete reachable state
`firedKeyState`. -/
theorem retry_key_invariant_amended_witness :
    (retryList firedKeyState (Ident.work 42, Action.loadWork) ≠ [] ∧
      ∀ t ∈ retryList firedKeyState (Ident.work 42, Action.loadWork),
        t.2 ≠ TimerStatus.cancelled) ∧
    keyPresent (cancel_retries firedKeyState (Ident.work 42, Action.loadWork))
      (Ident.work 42, Action.loadWork) = false :=
  ⟨(retry_key_invariant_amended firedKeyState firedKeyState_reachable
      (Ident.work 42, Action.loadWork)).1 (by decide),
   (retry_key_invariant_amended firedKeyState firedKeyState_reachable
      (Ident.work 42, Action.loadWork)).2.1⟩

/-- C6 counterexample: with threading enabled and `concurrency_limit =
100` in the configuration, the engine starts 100 worker threads; the
claimed clamp to `[1, 50]` would give 50, so the claim fails at this
configuration value. -/
theorem worker_count_clamp_cex :
    init_worker_threads (engineWorkerCount ⟨true, 100⟩) = 100 ∧
    claimedWorkerCount ⟨true, 100⟩ = 50 ∧
    ¬ init_worker_threads (engineWorkerCount ⟨true, 100⟩) ≤ 50 := by
  decide

theorem parseConcurrencyLimit_pos (fileValue : Option Int) :
    1 ≤ parseConcurrencyLimit fileValue DEFAULT_CONCURRENCY_LIMIT := by
  cases fileValue with
  | none => simp [parseConcurrencyLimit, DEFAULT_CONCURRENCY_LIMIT]
  | some v =>
    simp only [parseConcurrencyLimit, DEFAULT_CONCURRENCY_LIMIT]
    split <;> omega

/-- C6 amended: at startup (configuration read through
`parse_from_file`, which guarantees `concurrency_limit ≥ 1`) the engine
creates exactly 1 worker thread when threading is disabled or
`concurrency_limit = 1`, and otherwise exactly `concurrency_limit` worker
threads, always at least one; the engine applies no upper clamp — for
every bound there is a configuration value making it start more workers
(the [1, 50] range exists only in the GUI input widget). -/
theorem worker_count_amended (thr : Bool) (fileValue : Option Int) :
    (¬ thr = true ∨ parseConcurrencyLimit fileValue DEFAULT_CONCURRENCY_LIMIT = 1 →
      init_worker_threads
        (engineWorkerCount ⟨thr, parseConcurrencyLimit fileValue DEFAULT_CONCURRENCY_LIMIT⟩)
        = 1) ∧
    (thr = true ∧ parseConcurrencyLimit fileValue DEFAULT_CONCURRENCY_LIMIT > 1 →
      init_worker_threads
        (engineWorkerCount ⟨thr, parseConcurrencyLimit fileValue DEFAULT_CONCURRENCY_LIMIT⟩)
        = (parseConcurrencyLimit fileValue DEFAULT_CONCURRENCY_LIMIT).toNat) ∧
    1 ≤ init_worker_threads
        (engineWorkerCount ⟨thr, parseConcurrencyLimit fileValue DEFAULT_CONCURRENCY_LIMIT⟩) ∧
    (∀ M : Nat, ∃ v : Int,
      init_worker_threads
        (engineWorkerCount ⟨true, parseConcurrencyLimit (some v) DEFAULT_CONCURRENCY_LIMIT⟩)
        > M) := by
  have hpos := parseConcurrencyLimit_pos fileValue
  refine ⟨?_, ?_, ?_, ?_⟩
  · intro h
    rcases h with h | h
    · simp only [Bool.not_eq_true] at h
      simp [engineWorkerCount, init_worker_threads, h]
    · simp [engineWorkerCount, init_worker_threads, h]
  · rintro ⟨h1, h2⟩
    simp [engineWorkerCount, init_worker_threads, h1, h2]
  · unfold engineWorkerCount init_worker_threads
    split <;> omega
  · intro M
    refine ⟨(M : Int) + 1, ?_⟩
    have hparse : parseConcurrencyLimit (some ((M : Int) + 1)) DEFAULT_CONCURRENCY_LIMIT
        = (M : Int) + 1 := by
      simp only [parseConcurrencyLimit]
      split <;> omega
    rw [hparse]
    by_cases hM : ((M : Int) + 1) > 1
    · have hw : engineWorkerCount ⟨true, (M : Int) + 1⟩ = (M : Int) + 1 := by
        simp [engineWorkerCount, hM]
      rw [hw]
      unfold init_worker_threads
      omega
    · have hw : engineWorkerCount ⟨true, (M : Int) + 1⟩ = 1 := by
        simp [engineWorkerCount, hM]
      rw [hw]
      unfold init_worker_threads
      omega

/-- Witness for C6's amended statement: threading on with a parsed
`concurrency_limit` of 4 starts exactly 4 workers. -/
theorem worker_count_amended_witness :
    init_worker_threads
      (engineWorkerCount ⟨true, parseConcurrencyLimit (some 4) DEFAULT_CONCURRENCY_LIMIT⟩)
      = (4 : Int).toNat :=
  (worker_count_amended true (some 4)).2.1 ⟨rfl, by decide⟩

/-- C8: evaluation of the page-enumeration pipeline at the failing input.
With `page_start = 1` and `page_end = 0` ("all pages"), a listing whose
page carries no pagination navigation bar makes `Results.update` set
`pages = 1` while leaving `page_end = 0`, so
`range(max(1, 1), min(1, 0) + 1)` is empty and no `LoadResultsPage` task
at all is enqueued — though the claim requires page 1 to be loaded.  When
the navigation bar is found (total = 3) the same call enqueues exactly
pages 1, 2, 3, as claimed. -/
theorem results_list_all_pages_fallback_empty :
    load_works_from_generic_url (some "https://archiveofourown.org/tags/F/works") 1 0
      = [Ident.resultsList "https://archiveofourown.org/tags/F/works" 1 0] ∧
    resultsUpdate 0 PageProbe.noNavBar = (1, 0) ∧
    load_pages_from_results_list "https://archiveofourown.org/tags/F/works" 1 0
        PageProbe.noNavBar
      = (Status.ok, []) ∧
    load_pages_from_results_list "https://archiveofourown.org/tags/F/works" 1 0
        (PageProbe.found 3)
      = (Status.ok,
         [("https://archiveofourown.org/tags/F/works", 1),
          ("https://archiveofourown.org/tags/F/works", 2),
          ("https://archiveofourown.org/tags/F/works", 3)]) := by
  refine ⟨rfl, rfl, ?_, ?_⟩ <;> decide

/-- C9: evaluation of `series_id_from_url`.  The guard
`len(split_url) >= index + 1` is vacuously true, so for a URL whose last
segment is `series` the read of `split_url[index + 1]` raises an uncaught
`IndexError` — the function is not total, contradicting "returns none for
every other string ... never raises".  On well-formed inputs it behaves as
claimed: digits (also cut at `?`) are returned, non-digits give none. -/
theorem series_id_from_url_raises :
    series_id_from_url "https://archiveofourown.org/series"
      = Except.error "IndexError" ∧
    series_id_from_url "https://archiveofourown.org/series/123"
      = Except.ok (some 123) ∧
    series_id_from_url "https://archiveofourown.org/series/123?view_adult=true"
      = Except.ok (some 123) ∧
    series_id_from_url "https://archiveofourown.org/series/abc"
      = Except.ok none ∧
    series_id_from_url "https://archiveofourown.org/works/999"
      = Except.ok none := by
  refine ⟨rfl, rfl, rfl, rfl, rfl⟩

/-- C10: calling the public `remove(work_id)` with an id that is not in
the active set raises `KeyError` (from `set.remove`) instead of being a
no-op, and the exception propagates before the work-item cache deletion
and the retry cancellations run, so neither the Work Cache nor the retry
table is modified. -/
theorem remove_inactive_raises_keyerror (s : EngineState) (workId : Int)
    (h : workId ∉ s.activeIds) :
    removeWork s workId = (Except.error "KeyError", s) ∧
    (removeWork s workId).2.items = s.items ∧
    (removeWork s workId).2.retries = s.retries := by
  have heq : removeWork s workId = (Except.error "KeyError", s) := by
    unfold removeWork
    simp [h]
  exact ⟨heq, by rw [heq], by rw [heq]⟩

/-- Witness for C10: removing id 5 while only id 1 is active raises
`KeyError` and leaves the cached item for id 3 and the retry state
untouched. -/
theorem remove_inactive_raises_keyerror_witness :
    removeWork ⟨[1], [(3, ⟨true, none⟩)], initRetryState⟩ 5
      = (Except.error "KeyError", ⟨[1], [(3, ⟨true, none⟩)], initRetryState⟩) :=
  (remove_inactive_raises_keyerror ⟨[1], [(3, ⟨true, none⟩)], initRetryState⟩ 5
    (by decide)).1

end Froyo
